import Mathlib

/-!
Verification of the CuBFF Windows compatibility headers
(`windows_portability.h`, `common_windows.h`).

The headers are conditional-compilation glue: macro redefinitions of
POSIX names, an inline `strerror_r` shim, neutralization of
`__attribute__`, and linker pragmas.  We embed them shallowly:

* a byte is a `Nat` (`0` is the C string terminator); a buffer of
  capacity `N` is a `List Nat` of length `N`;
* the relevant preprocessor symbols (`_WIN32`, `_MSC_VER`, `__GNUC__`,
  `_OPENMP`) form a `Config` of booleans;
* platform calls that are not part of the repository (`strerror`,
  `strerror_s`, `_getpid`, `_mkdir`, `_access`) are parameters of the
  embedding, constrained only where their documented contract is needed.
-/

namespace CuBFF

/-- Preprocessor configuration: which of the symbols `_WIN32`,
`_MSC_VER`, `__GNUC__` and `_OPENMP` are defined for a compilation. -/
structure Config where
  win32 : Bool
  msvc : Bool
  gnuc : Bool
  openmp : Bool
deriving DecidableEq, Repr

/-- The C string stored in a byte sequence: the bytes before the first
null terminator. -/
def cstr (l : List Nat) : List Nat :=
  l.takeWhile (fun b => b ≠ 0)

/-- C `strncpy dst src n`: copies at most `n` bytes of the C string at
`src` (stopping after its terminator) and pads with null bytes up to
exactly `n` bytes written; bytes of `dst` past index `n - 1` are left
unchanged.  `src` is given as a byte sequence; only its leading C string
(`cstr src`) is read, as in C. -/
def strncpy (dst src : List Nat) (n : Nat) : List Nat :=
  ((cstr src).take n ++ List.replicate (n - (cstr src).length) 0) ++ dst.drop n

/-- The pointer values the shimmed `strerror_r` could conceivably
return: the caller's buffer, some static storage, or null. -/
inductive CPtr where
  | toBuf : CPtr
  | toStatic : CPtr
  | null : CPtr
deriving DecidableEq, Repr

/-- The inline `strerror_r` shim of `windows_portability.h:21-31`.

`em errnum` is the platform's error text for `errnum` (the C string
`strerror` returns, terminator excluded); `ss errnum buflen` is the
buffer that the platform's `strerror_s` leaves behind for an error
number and a buffer capacity (both are platform calls, not code of this
repository, so they are parameters).  `buf` is the destination buffer;
its list length is the capacity `buflen` passed to the C function.

The result is the final buffer contents paired with the returned
pointer; both source branches end in `return buf`. -/
def strerror_r (em : Int → List Nat) (ss : Int → Nat → List Nat)
    (msvc : Bool) (errnum : Int) (buf : List Nat) : List Nat × CPtr :=
  if msvc then
    (ss errnum buf.length, CPtr.toBuf)
  else
    let result := em errnum
    let buf1 := strncpy buf result buf.length
    let buf2 := buf1.set (buf.length - 1) 0
    (buf2, CPtr.toBuf)

/-- The documented contract of the platform's `strerror_s`, as the spec
restates it: for a capacity `n ≥ 1` it fills exactly the `n`-byte
buffer, null-terminates it, and the string it leaves is the error text
truncated to at most `n - 1` bytes. -/
def StrerrorSContract (em : Int → List Nat) (ss : Int → Nat → List Nat) : Prop :=
  ∀ e n, 1 ≤ n →
    (ss e n).length = n ∧ 0 ∈ ss e n ∧ cstr (ss e n) = (em e).take (n - 1)

/-- Reference behaviour written from the spec's words for the non-MSVC
branch: a buffer-bounded copy of `strerror errnum` into `buf` — the
text truncated to the first `buflen - 1` bytes, a null terminator, and
null padding filling the rest of the buffer. -/
def specBoundedCopy (em : Int → List Nat) (errnum : Int) (buf : List Nat) : List Nat :=
  (em errnum).take (buf.length - 1) ++
    0 :: List.replicate (buf.length - 1 - (em errnum).length) 0

/-- The index of the null-terminator store into `buf[buflen - 1]` at
`windows_portability.h:28`: `buflen - 1` computed in `size_t`
(64-bit wrap-around subtraction). -/
def storeIndex (buflen : Nat) : Nat :=
  (buflen + 2 ^ 64 - 1) % 2 ^ 64

/-- The Windows C runtime entry points `_getpid`, `_mkdir`, `_access`
(platform code, not part of the repository): parameters acting on an
abstract platform state `σ`. -/
structure WinCrt (σ : Type) where
  _getpid : σ → Int × σ
  _mkdir : List Nat → σ → Int × σ
  _access : List Nat → Int → σ → Int × σ

/-- Macro `#define getpid _getpid` (`windows_portability.h:13`): under
`_WIN32` a call through the POSIX name is a call of `_getpid`. -/
def getpid {σ : Type} (crt : WinCrt σ) (s : σ) : Int × σ :=
  crt._getpid s

/-- Macro `#define mkdir(name, mode) _mkdir(name)`
(`windows_portability.h:14`): under `_WIN32` a call through the POSIX
name drops `mode` and calls `_mkdir` on the name alone. -/
def mkdir {σ : Type} (crt : WinCrt σ) (name : List Nat) (mode : Nat) (s : σ) : Int × σ :=
  crt._mkdir name s

/-- Macro `#define access _access` (`windows_portability.h:15`): under
`_WIN32` a call through the POSIX name is a call of `_access`. -/
def access {σ : Type} (crt : WinCrt σ) (name : List Nat) (amode : Int) (s : σ) : Int × σ :=
  crt._access name amode s

/-- Expansion of the token sequence `__attribute__(x)` after
`windows_portability.h:33-36`: the header defines
`#define __attribute__(x)` only inside its `#ifdef _WIN32` block and
under `#ifndef __GNUC__`, so only in that configuration does the
sequence expand to nothing; otherwise the tokens stay as written. -/
def __attribute__ (cfg : Config) (x : List String) : List String :=
  if cfg.win32 && !cfg.gnuc then []
  else "__attribute__" :: "(" :: (x ++ [")"])

/-- The linker pragmas emitted by `common_windows.h:11-20`: under
`_WIN32` with a non-GCC compiler, `brotlienc.lib` and `brotlidec.lib`,
plus `libiomp5md.lib` when `_OPENMP` is defined; nothing otherwise. -/
def linkerPragmas (cfg : Config) : List String :=
  if cfg.win32 && !cfg.gnuc then
    ["brotlienc.lib", "brotlidec.lib"] ++
      (if cfg.openmp then ["libiomp5md.lib"] else [])
  else []

/-- A concrete platform error-text table used to witness the theorems:
every error number maps to the text "ERR" (bytes 69, 82, 82). -/
def emK : Int → List Nat := fun _ => [69, 82, 82]

/-- A concrete `strerror_s` used to witness the theorems: it truncates
`emK`'s text to the capacity, terminates it and pads with nulls. -/
def ssK : Int → Nat → List Nat := fun e n =>
  (emK e).take (n - 1) ++ 0 :: List.replicate (n - 1 - (emK e).length) 0

/-! ### Helper lemmas -/

theorem cstr_length_le (l : List Nat) : (cstr l).length ≤ l.length :=
  List.Sublist.length_le (List.takeWhile_sublist _)

theorem cstr_ne_zero_of_mem {l : List Nat} {a : Nat} (h : a ∈ cstr l) : a ≠ 0 := by
  have := List.mem_takeWhile_imp h
  simpa using this

theorem cstr_of_ne_zero {l : List Nat} (h : ∀ a ∈ l, a ≠ 0) : cstr l = l := by
  refine List.takeWhile_eq_self_iff.mpr ?_
  intro a ha
  simpa using h a ha

/-- Reading `cstr` off a null-free block followed by a null terminator
gives the block itself. -/
theorem cstr_append_zero (l rest : List Nat) (h : ∀ a ∈ l, a ≠ 0) :
    cstr (l ++ 0 :: rest) = l := by
  induction l with
  | nil => simp [cstr]
  | cons a t ih =>
      have ha : a ≠ 0 := h a (by simp)
      have ht : ∀ b ∈ t, b ≠ 0 := fun b hb => h b (by simp [hb])
      simp [cstr, List.takeWhile, ha]
      simpa [cstr] using ih ht

/-- Setting a byte of an all-null block to null changes nothing. -/
theorem set_replicate_zero (k i : Nat) :
    (List.replicate k (0 : Nat)).set i 0 = List.replicate k 0 := by
  induction k generalizing i with
  | zero => simp
  | succ m ih =>
      cases i with
      | zero => simp [List.replicate_succ]
      | succ j => simp [List.replicate_succ, ih j]

/-- Overwriting the last byte of a `take (m + 1)` prefix with a null. -/
theorem take_set_last (t : List Nat) (m : Nat) (h : m < t.length) :
    (t.take (m + 1)).set m 0 = t.take m ++ [0] := by
  have hget : t[m]?.toList = [t.get ⟨m, h⟩] := by
    simp [List.getElem?_eq_getElem h]
  have hlen : (t.take m).length = m := by
    simp [Nat.le_of_lt h]
  rw [List.take_succ, hget, List.set_append, if_neg (by omega), hlen]
  simp

/-- Closed form of the non-MSVC branch: `strncpy` into the whole buffer
followed by the forced terminator leaves the error text truncated to
`buflen - 1` bytes, a null, and null padding to the capacity. -/
theorem strerror_r_nonmsvc_eq (em : Int → List Nat) (ss : Int → Nat → List Nat)
    (errnum : Int) (buf : List Nat) (h : 1 ≤ buf.length) :
    (strerror_r em ss false errnum buf).1 =
      (cstr (em errnum)).take (buf.length - 1) ++
        0 :: List.replicate (buf.length - 1 - (cstr (em errnum)).length) 0 := by
  set t := cstr (em errnum) with ht
  set n := buf.length with hn
  have hdrop : buf.drop n = [] := by
    rw [hn]; exact List.drop_length buf
  show (((t.take n ++ List.replicate (n - t.length) 0) ++ buf.drop n).set (n - 1) 0) = _
  rw [hdrop, List.append_nil]
  rcases Nat.lt_or_ge t.length n with hlt | hge
  · -- the text fits: `take n` is the whole text, padding is nonempty
    have htk : t.take n = t := List.take_of_length_le (Nat.le_of_lt hlt)
    have htk' : t.take (n - 1) = t := List.take_of_length_le (by omega)
    have hset : (t ++ List.replicate (n - t.length) 0).set (n - 1) 0 =
        t ++ (List.replicate (n - t.length) 0).set (n - 1 - t.length) 0 := by
      rw [List.set_append, if_neg (by omega)]
    rw [htk, hset, set_replicate_zero, htk']
    have hrep : List.replicate (n - t.length) (0 : Nat) =
        0 :: List.replicate (n - 1 - t.length) 0 := by
      have : n - t.length = (n - 1 - t.length) + 1 := by omega
      rw [this, List.replicate_succ]
    rw [hrep]
  · -- the text is truncated: padding is empty, the last copied byte is overwritten
    have hrep : n - t.length = 0 := by omega
    rw [hrep, List.replicate_zero, List.append_nil]
    have hn1 : n - 1 < t.length := by omega
    have hstep := take_set_last t (n - 1) hn1
    rw [Nat.sub_add_cancel h] at hstep
    rw [hstep]
    have hrep2 : n - 1 - t.length = 0 := by omega
    simp [hrep2]

/-- Reading `cstr` off a truncated C string followed by a terminator
and null padding recovers the truncated string. -/
theorem cstr_trunc_append (s : List Nat) (k j : Nat) :
    cstr ((cstr s).take k ++ 0 :: List.replicate j 0) = (cstr s).take k :=
  cstr_append_zero _ _ (fun a ha => cstr_ne_zero_of_mem (List.mem_of_mem_take ha))

/-- Dropping past an appended prefix. -/
theorem drop_append_of_le_length (pre l2 : List Nat) (i : Nat) (h : pre.length ≤ i) :
    (pre ++ l2).drop i = l2.drop (i - pre.length) := by
  calc (pre ++ l2).drop i
      = (pre ++ l2).drop (pre.length + (i - pre.length)) := by
        rw [Nat.add_sub_cancel' h]
    _ = l2.drop (i - pre.length) := List.drop_append _

/-- The concrete witness platform satisfies the `strerror_s` contract. -/
theorem ssK_contract : StrerrorSContract emK ssK := by
  intro e n hn
  refine ⟨?_, ?_, ?_⟩
  · simp [ssK, emK, List.length_take]
    omega
  · simp [ssK]
  · have hne : ∀ a ∈ (emK e).take (n - 1), a ≠ 0 := by
      intro a ha
      have := List.mem_of_mem_take ha
      simp [emK] at this
      omega
    exact cstr_append_zero _ _ hne

/-- Claim C1: for every error number and every destination buffer of
capacity `N ≥ 1`, the shimmed `strerror_r` leaves in the buffer a
null-terminated string of length at most `N - 1`, writing only within
the buffer's `N` bytes (the final contents still have length `N`). -/
theorem strerror_r_safe (em : Int → List Nat) (ss : Int → Nat → List Nat)
    (msvc : Bool) (errnum : Int) (buf : List Nat)
    (hss : StrerrorSContract em ss) (h : 1 ≤ buf.length) :
    (strerror_r em ss msvc errnum buf).1.length = buf.length ∧
      0 ∈ (strerror_r em ss msvc errnum buf).1 ∧
      (cstr (strerror_r em ss msvc errnum buf).1).length ≤ buf.length - 1 := by
  cases msvc with
  | true =>
      obtain ⟨hl, hm, hc⟩ := hss errnum buf.length h
      refine ⟨hl, hm, ?_⟩
      have : (strerror_r em ss true errnum buf).1 = ss errnum buf.length := rfl
      rw [this, hc, List.length_take]
      exact Nat.min_le_left _ _
  | false =>
      rw [strerror_r_nonmsvc_eq em ss errnum buf h]
      refine ⟨?_, ?_, ?_⟩
      · have h1 := cstr_length_le (em errnum)
        simp [List.length_take]
        omega
      · simp
      · rw [cstr_trunc_append, List.length_take]
        exact Nat.min_le_left _ _

/-- Witness for C1 at a concrete platform and a 3-byte buffer. -/
theorem strerror_r_safe_w :
    (strerror_r emK ssK false 0 [7, 7, 7]).1.length = ([7, 7, 7] : List Nat).length ∧
      0 ∈ (strerror_r emK ssK false 0 [7, 7, 7]).1 ∧
      (cstr (strerror_r emK ssK false 0 [7, 7, 7]).1).length ≤
        ([7, 7, 7] : List Nat).length - 1 :=
  strerror_r_safe emK ssK false 0 [7, 7, 7] ssK_contract (by decide)

/-- Claim C2: the string the shimmed `strerror_r` leaves in a buffer of
capacity `N ≥ 1` is the platform's error text when that fits in `N - 1`
bytes, and otherwise its truncation to the first `N - 1` bytes. -/
theorem strerror_r_text (em : Int → List Nat) (ss : Int → Nat → List Nat)
    (msvc : Bool) (errnum : Int) (buf : List Nat)
    (hss : StrerrorSContract em ss) (hem : ∀ a ∈ em errnum, a ≠ 0)
    (h : 1 ≤ buf.length) :
    (buf.length - 1 < (em errnum).length →
        cstr (strerror_r em ss msvc errnum buf).1 = (em errnum).take (buf.length - 1)) ∧
      ((em errnum).length ≤ buf.length - 1 →
        cstr (strerror_r em ss msvc errnum buf).1 = em errnum) := by
  have key : cstr (strerror_r em ss msvc errnum buf).1 = (em errnum).take (buf.length - 1) := by
    cases msvc with
    | true =>
        have : (strerror_r em ss true errnum buf).1 = ss errnum buf.length := rfl
        rw [this]
        exact (hss errnum buf.length h).2.2
    | false =>
        rw [strerror_r_nonmsvc_eq em ss errnum buf h, cstr_trunc_append,
          cstr_of_ne_zero hem]
  exact ⟨fun _ => key, fun hle => key.trans (List.take_of_length_le hle)⟩

/-- Witness for C2 in the MSVC branch: a 4-byte buffer holds the whole
3-byte witness text. -/
theorem strerror_r_text_w :
    cstr (strerror_r emK ssK true 0 [7, 7, 7, 7]).1 = emK 0 :=
  (strerror_r_text emK ssK true 0 [7, 7, 7, 7] ssK_contract (by decide) (by decide)).2
    (by decide)

/-- Claim C3: the shim is one of two references selected by the
compiler family alone — under `_MSC_VER` it delegates to
`strerror_s(buf, buflen, errnum)`, otherwise its effect is the
buffer-bounded copy of `strerror(errnum)` described by the spec — and
its observable effect equals that of the selected reference. -/
theorem strerror_r_refines (em : Int → List Nat) (ss : Int → Nat → List Nat)
    (msvc : Bool) (errnum : Int) (buf : List Nat)
    (hem : ∀ a ∈ em errnum, a ≠ 0) (h : 1 ≤ buf.length) :
    strerror_r em ss msvc errnum buf =
      if msvc then (ss errnum buf.length, CPtr.toBuf)
      else (specBoundedCopy em errnum buf, CPtr.toBuf) := by
  cases msvc with
  | true => rfl
  | false =>
      simp only [if_neg Bool.false_ne_true]
      have h1 : (strerror_r em ss false errnum buf).2 = CPtr.toBuf := rfl
      have h2 := strerror_r_nonmsvc_eq em ss errnum buf h
      rw [cstr_of_ne_zero hem] at h2
      exact Prod.ext h2 h1

/-- Witness for C3 in the non-MSVC branch with a 2-byte buffer. -/
theorem strerror_r_refines_w :
    strerror_r emK ssK false 0 [7, 7] = (specBoundedCopy emK 0 [7, 7], CPtr.toBuf) :=
  strerror_r_refines emK ssK false 0 [7, 7] (by decide) (by decide)

/-- Claim C4: under `_WIN32` a call through a POSIX name (`getpid`,
`mkdir`, `access`) is, by macro redefinition, exactly the corresponding
Windows C-runtime call (`_getpid`, `_mkdir(name)`, `_access`) on the
same arguments and state. -/
theorem posix_names_map {σ : Type} (crt : WinCrt σ) (name : List Nat)
    (mode : Nat) (amode : Int) (s : σ) :
    getpid crt s = crt._getpid s ∧
      mkdir crt name mode s = crt._mkdir name s ∧
      access crt name amode s = crt._access name amode s :=
  ⟨rfl, rfl, rfl⟩

/-- Claim C5 as stated is false: the header neutralizes
`__attribute__(x)` only inside its `#ifdef _WIN32` block, so on a
non-Windows, non-GCC configuration the tokens are left as written. -/
theorem attribute_counterexample :
    (Config.mk false false false false).gnuc = false ∧
      __attribute__ (Config.mk false false false false) ["noreturn"] ≠ [] := by
  refine ⟨rfl, ?_⟩
  decide

/-- Claim C5, amended: under `_WIN32` with a non-GCC compiler,
`__attribute__(x)` expands to nothing for every argument `x`. -/
theorem attribute_neutralized (cfg : Config) (x : List String)
    (hw : cfg.win32 = true) (hg : cfg.gnuc = false) :
    __attribute__ cfg x = [] := by
  simp [__attribute__, hw, hg]

/-- Witness for the amended C5 at a concrete configuration. -/
theorem attribute_neutralized_w :
    __attribute__ (Config.mk true false false false) ["noreturn"] = [] :=
  attribute_neutralized (Config.mk true false false false) ["noreturn"] rfl rfl

/-- Claim C6 as stated is false: with `_OPENMP` defined the toolchain
emits three linker pragmas, not two, and without it no OpenMP pragma is
emitted at all. -/
theorem linker_pragmas_counterexample :
    (linkerPragmas (Config.mk true true false true)).length ≠ 2 ∧
      "libiomp5md.lib" ∉ linkerPragmas (Config.mk true true false false) := by
  refine ⟨?_, ?_⟩ <;> decide

/-- Claim C6, amended: linker pragmas are emitted only under `_WIN32`
with a non-GCC compiler, and then the surface is exactly the encoder
and decoder library pragmas plus, when `_OPENMP` is defined, the OpenMP
runtime library pragma; under any other toolchain none is emitted. -/
theorem linker_pragmas_exact (cfg : Config) :
    (cfg.win32 = true → cfg.gnuc = false →
        linkerPragmas cfg = ["brotlienc.lib", "brotlidec.lib"] ++
          (if cfg.openmp then ["libiomp5md.lib"] else [])) ∧
      (¬(cfg.win32 = true ∧ cfg.gnuc = false) → linkerPragmas cfg = []) := by
  obtain ⟨w, m, g, o⟩ := cfg
  cases w <;> cases g <;> simp_all [linkerPragmas]

/-- Witness for the amended C6 at the MSVC-with-OpenMP configuration. -/
theorem linker_pragmas_exact_w :
    linkerPragmas (Config.mk true true false true) =
      ["brotlienc.lib", "brotlidec.lib", "libiomp5md.lib"] :=
  (linker_pragmas_exact (Config.mk true true false true)).1 rfl rfl

/-- Claim C7: the shim is zero-state and deterministic — with the same
platform, two calls with the same error number and buffers of the same
capacity leave identical contents and return the same pointer, and
nothing but the supplied buffer is touched (the embedding is a pure
function of its arguments). -/
theorem strerror_r_deterministic (em : Int → List Nat) (ss : Int → Nat → List Nat)
    (msvc : Bool) (errnum : Int) (buf1 buf2 : List Nat)
    (hlen : buf1.length = buf2.length) :
    strerror_r em ss msvc errnum buf1 = strerror_r em ss msvc errnum buf2 := by
  cases msvc with
  | true => simp [strerror_r, hlen]
  | false =>
      simp only [strerror_r, Bool.false_eq_true, if_false]
      rw [show strncpy buf1 (em errnum) buf1.length =
            (cstr (em errnum)).take buf1.length ++
              List.replicate (buf1.length - (cstr (em errnum)).length) 0 from by
          simp [strncpy, List.drop_length],
        show strncpy buf2 (em errnum) buf2.length =
            (cstr (em errnum)).take buf2.length ++
              List.replicate (buf2.length - (cstr (em errnum)).length) 0 from by
          simp [strncpy, List.drop_length],
        hlen]

/-- Witness for C7: distinct 2-byte buffers end with equal contents. -/
theorem strerror_r_deterministic_w :
    strerror_r emK ssK false 0 [1, 2] = strerror_r emK ssK false 0 [3, 4] :=
  strerror_r_deterministic emK ssK false 0 [1, 2] [3, 4] rfl

/-- Claim C8: for every error number and buffer of capacity at least 1,
both branches of the shim return exactly the supplied buffer pointer —
never null, never a pointer to static storage. -/
theorem strerror_r_returns_buf (em : Int → List Nat) (ss : Int → Nat → List Nat)
    (msvc : Bool) (errnum : Int) (buf : List Nat) (h : 1 ≤ buf.length) :
    (strerror_r em ss msvc errnum buf).2 = CPtr.toBuf ∧
      (strerror_r em ss msvc errnum buf).2 ≠ CPtr.null ∧
      (strerror_r em ss msvc errnum buf).2 ≠ CPtr.toStatic := by
  cases msvc <;> simp [strerror_r]

/-- Witness for C8 in the MSVC branch with a 1-byte buffer. -/
theorem strerror_r_returns_buf_w :
    (strerror_r emK ssK true 0 [5]).2 = CPtr.toBuf ∧
      (strerror_r emK ssK true 0 [5]).2 ≠ CPtr.null ∧
      (strerror_r emK ssK true 0 [5]).2 ≠ CPtr.toStatic :=
  strerror_r_returns_buf emK ssK true 0 [5] (by decide)

/-- Claim C10: the precondition `buflen ≥ 1` is what keeps the non-MSVC
branch in bounds — for `buflen ≥ 1` the forced store lands at index
`buflen - 1 < buflen` and `strncpy` writes only the first `buflen`
bytes of the buffer, while for `buflen = 0` the store index, computed
in `size_t`, wraps to `2^64 - 1` and falls outside the buffer. -/
theorem strncpy_store_bounds (buf s : List Nat) (buflen i : Nat)
    (hb : buf.length = buflen) (hw : buflen < 2 ^ 64) :
    (1 ≤ buflen →
        storeIndex buflen = buflen - 1 ∧ storeIndex buflen < buflen ∧
        (strncpy buf s buflen).length = buflen ∧
        (buflen ≤ i → (strncpy buf s buflen).drop i = buf.drop i)) ∧
      (buflen = 0 →
        storeIndex buflen = 2 ^ 64 - 1 ∧ ¬ storeIndex buflen < buf.length) := by
  have hpre : ((cstr s).take buflen ++
      List.replicate (buflen - (cstr s).length) 0).length = buflen := by
    simp [List.length_take]
    omega
  constructor
  · intro h1
    refine ⟨?_, ?_, ?_, ?_⟩
    · simp only [storeIndex]
      omega
    · simp only [storeIndex]
      omega
    · simp [strncpy, List.length_take]
      omega
    · intro hi
      show (((cstr s).take buflen ++ List.replicate (buflen - (cstr s).length) 0) ++
          buf.drop buflen).drop i = buf.drop i
      rw [drop_append_of_le_length _ _ i (by omega), hpre, List.drop_drop,
        Nat.add_sub_cancel' hi]
  · intro h0
    subst h0
    constructor
    · simp [storeIndex]
    · rw [hb]
      simp [storeIndex]

/-- Witness for C10 with a 3-byte buffer and the index just past it. -/
theorem strncpy_store_bounds_w :
    storeIndex 3 = 3 - 1 ∧ storeIndex 3 < 3 ∧
      (strncpy [7, 7, 7] (emK 0) 3).length = 3 ∧
      (3 ≤ 3 → (strncpy [7, 7, 7] (emK 0) 3).drop 3 = ([7, 7, 7] : List Nat).drop 3) :=
  (strncpy_store_bounds [7, 7, 7] (emK 0) 3 3 rfl (by norm_num)).1 (by decide)

/-- Claim C9: under `_WIN32` the `mkdir(name, mode)` macro expands to
`_mkdir(name)` and discards `mode`: for any two modes the two calls are
the same call, with the same result and effect. -/
theorem mkdir_mode_independent {σ : Type} (crt : WinCrt σ) (name : List Nat)
    (m1 m2 : Nat) (s : σ) :
    mkdir crt name m1 s = mkdir crt name m2 s := rfl

end CuBFF
